import Mathlib

/-!
Shallow embedding of the aegis-onboarding frontend (TypeScript sources) used to
check the natural-language specification against the code.

Sources embedded:
* the shared type declarations (Client, OnboardingStep, OnboardingProgress,
  WebSocket message shapes);
* the zod intake-form schema and the ClientForm submission path;
* the zustand store actions (addClient, updateClient, reset);
* the useWebSocket hook (connect / onclose reconnect / disconnect);
* the HomePage WebSocket-message handler (step_update, approval_request,
  onboarding_complete, error cases);
* the StatusDashboard approval-button condition.
-/

namespace Aegis

/-- ProjectType enum from the shared types module. -/
inductive ProjectType where
  | web_development
  | mobile_app
  | design
  | marketing
  | consulting
  | other
  deriving DecidableEq, Repr

/-- ClientStatus enum: pending, in_progress, completed, failed. -/
inductive ClientStatus where
  | pending
  | in_progress
  | completed
  | failed
  deriving DecidableEq, Repr

/-- Status union of an OnboardingStep: pending, in_progress, completed, failed. -/
inductive StepStatus where
  | pending
  | in_progress
  | completed
  | failed
  deriving DecidableEq, Repr

/-- Value stored in an open-ended metadata map (Record of string to any in the
source). The claims never inspect values, so strings and nested records cover
the shapes the handlers construct. -/
inductive MetaVal where
  | str (s : String)
  | record (fields : List (String × String))
  deriving DecidableEq, Repr

/-- Open-ended metadata map attached to steps and approval payloads. -/
abbrev Metadata : Type := List (String × MetaVal)

/-- ClientInput: the intake form data shape. -/
structure ClientInput where
  name : String
  email : String
  company : Option String
  phone : Option String
  project_type : ProjectType
  project_scope : String
  budget_range : Option String
  timeline : Option String
  additional_notes : Option String
  deriving DecidableEq, Repr

/-- Client record: intake fields plus id, status, timestamps and the provider
identifiers populated by completed steps. -/
structure Client extends ClientInput where
  id : String
  status : ClientStatus
  created_at : String
  updated_at : String
  drive_folder_id : Option String
  contract_doc_id : Option String
  slack_channel_id : Option String
  github_repo_url : Option String
  notion_board_id : Option String
  stripe_customer_id : Option String
  invoice_id : Option String
  deriving DecidableEq, Repr

/-- OnboardingStep record scoped to one client. -/
structure OnboardingStep where
  id : String
  name : String
  description : String
  status : StepStatus
  started_at : Option String
  completed_at : Option String
  error_message : Option String
  metadata : Option Metadata
  deriving DecidableEq, Repr

/-- OnboardingProgress: the aggregate snapshot for one client. The progress
percentage is a JavaScript number fed from event payloads, so it is embedded
as an unconstrained integer. -/
structure OnboardingProgress where
  client_id : String
  steps : List OnboardingStep
  current_step : Nat
  overall_status : ClientStatus
  started_at : Option String
  completed_at : Option String
  progress_percentage : Int
  deriving DecidableEq, Repr

/-! ## Intake form validation (clientFormSchema and ClientForm) -/

/-- Name constraint of clientFormSchema: min 2, max 100 characters. -/
def validName (s : String) : Bool :=
  2 ≤ s.length && s.length ≤ 100

/-- Project-scope constraint of clientFormSchema: min 10, max 1000 characters. -/
def validScope (s : String) : Bool :=
  10 ≤ s.length && s.length ≤ 1000

/-- Additional-notes constraint of clientFormSchema: optional, max 500
characters when present. -/
def validNotes : Option String → Bool
  | none => true
  | some s => s.length ≤ 500

/-- clientFormSchema as a whole. The email check comes from the external zod
library (z.string().email()), whose regex is not part of this repository, so
the validator is parametrised by that check. -/
def validateClientInput (emailOk : String → Bool) (i : ClientInput) : Bool :=
  validName i.name && emailOk i.email && validScope i.project_scope &&
    validNotes i.additional_notes

/-- ClientForm submission: handleSubmit runs the zod resolver and invokes the
onSubmit callback only when the data validates; invalid data is rejected with
field errors and the callback is never invoked. The result is the argument
passed to onSubmit, or none when rejected. -/
def submitClientForm (emailOk : String → Bool) (i : ClientInput) :
    Option ClientInput :=
  if validateClientInput emailOk i then some i else none

/-! ## Zustand store (onboardingStore.ts) -/

/-- Partial Client: the updates argument of the store's updateClient action.
Every Client field may be present or absent; spreading applies the present
ones over the existing record. -/
structure ClientUpdates where
  name : Option String := none
  email : Option String := none
  company : Option (Option String) := none
  phone : Option (Option String) := none
  project_type : Option ProjectType := none
  project_scope : Option String := none
  budget_range : Option (Option String) := none
  timeline : Option (Option String) := none
  additional_notes : Option (Option String) := none
  id : Option String := none
  status : Option ClientStatus := none
  created_at : Option String := none
  updated_at : Option String := none
  drive_folder_id : Option (Option String) := none
  contract_doc_id : Option (Option String) := none
  slack_channel_id : Option (Option String) := none
  github_repo_url : Option (Option String) := none
  notion_board_id : Option (Option String) := none
  stripe_customer_id : Option (Option String) := none
  invoice_id : Option (Option String) := none
  deriving DecidableEq, Repr

/-- Object spread of a Partial Client over a Client: present update fields
win, absent ones keep the existing value. -/
def mergeClient (c : Client) (u : ClientUpdates) : Client where
  name := u.name.getD c.name
  email := u.email.getD c.email
  company := u.company.getD c.company
  phone := u.phone.getD c.phone
  project_type := u.project_type.getD c.project_type
  project_scope := u.project_scope.getD c.project_scope
  budget_range := u.budget_range.getD c.budget_range
  timeline := u.timeline.getD c.timeline
  additional_notes := u.additional_notes.getD c.additional_notes
  id := u.id.getD c.id
  status := u.status.getD c.status
  created_at := u.created_at.getD c.created_at
  updated_at := u.updated_at.getD c.updated_at
  drive_folder_id := u.drive_folder_id.getD c.drive_folder_id
  contract_doc_id := u.contract_doc_id.getD c.contract_doc_id
  slack_channel_id := u.slack_channel_id.getD c.slack_channel_id
  github_repo_url := u.github_repo_url.getD c.github_repo_url
  notion_board_id := u.notion_board_id.getD c.notion_board_id
  stripe_customer_id := u.stripe_customer_id.getD c.stripe_customer_id
  invoice_id := u.invoice_id.getD c.invoice_id

/-- The current-view union of the store. -/
inductive View where
  | landing
  | form
  | orchestration
  | complete
  | dashboard
  deriving DecidableEq, Repr

/-- The OnboardingState held by the zustand store (data fields only; the
action closures are embedded as the functions below). -/
structure StoreState where
  currentClient : Option Client
  currentProgress : Option OnboardingProgress
  isOnboardingActive : Bool
  currentView : View
  showOnboardingModal : Bool
  isLoading : Bool
  error : Option String
  isConnected : Bool
  clients : List Client
  deriving DecidableEq, Repr

/-- The store's initialState object. -/
def initialState : StoreState where
  currentClient := none
  currentProgress := none
  isOnboardingActive := false
  currentView := .landing
  showOnboardingModal := false
  isLoading := false
  error := none
  isConnected := false
  clients := []

/-- addClient action on the clients list: findIndex on id; replace at the
found index, otherwise prepend the new client. -/
def addClient (client : Client) (clients : List Client) : List Client :=
  match clients.findIdx? (fun c => c.id == client.id) with
  | some i => clients.set i client
  | none => client :: clients

/-- updateClient action, clients-list part: map the spread-merge over the
entries whose id matches. -/
def updateClientList (clientId : String) (u : ClientUpdates)
    (clients : List Client) : List Client :=
  clients.map (fun c => if c.id == clientId then mergeClient c u else c)

/-- updateClient action on the whole store: rewrite the clients list, then
also merge into currentClient when its id matches. -/
def updateClient (clientId : String) (u : ClientUpdates)
    (st : StoreState) : StoreState :=
  let st1 := { st with clients := updateClientList clientId u st.clients }
  match st1.currentClient with
  | some c =>
      if c.id == clientId then
        { st1 with currentClient := some (mergeClient c u) }
      else st1
  | none => st1

/-- reset action: zustand set with a partial object clearing the session
fields; isConnected and clients are not in the object and keep their values. -/
def reset (st : StoreState) : StoreState :=
  { st with
    currentClient := none
    currentProgress := none
    isOnboardingActive := false
    currentView := .landing
    showOnboardingModal := false
    isLoading := false
    error := none }

/-! ## useWebSocket hook (useWebSocket.ts) -/

/-- State held by the useWebSocket hook: the clientIdRef, whether socketRef
currently holds a socket, the isConnected flag, whether a reconnect timeout is
scheduled, and a counter of connection attempts (used to observe whether a
reconnection is ever attempted). -/
structure WSState where
  clientId : Option String
  hasSocket : Bool
  isConnected : Bool
  pendingReconnect : Bool
  connectCount : Nat
  deriving DecidableEq, Repr

/-- connect(clientId): stores the client id in clientIdRef and opens a new
socket (counted in connectCount). -/
def wsConnect (cid : String) (st : WSState) : WSState :=
  { st with
    clientId := some cid
    hasSocket := true
    connectCount := st.connectCount + 1 }

/-- socket.onclose handler: clears isConnected; schedules a reconnect timeout
exactly when the close code is not 1000 and clientIdRef still holds an id. -/
def wsOnClose (code : Nat) (st : WSState) : WSState :=
  { st with
    isConnected := false
    pendingReconnect := code != 1000 && st.clientId.isSome }

/-- disconnect(): when a socket is held, clears clientIdRef, closes the socket
with code 1000 (manual disconnect) which fires onclose, and drops the socket;
otherwise only clears isConnected. -/
def wsDisconnect (st : WSState) : WSState :=
  if st.hasSocket then
    wsOnClose 1000 { st with clientId := none, hasSocket := false }
  else
    { st with isConnected := false }

/-- The scheduled reconnect timeout firing: it re-checks clientIdRef and calls
connect only when an id is still present. -/
def wsTimerFire (st : WSState) : WSState :=
  if st.pendingReconnect then
    match st.clientId with
    | some cid => wsConnect cid { st with pendingReconnect := false }
    | none => { st with pendingReconnect := false }
  else st

/-- Events the hook's state reacts to after setup: a socket close with a code,
the reconnect timeout firing, and further manual disconnect calls. -/
inductive WSEvent where
  | close (code : Nat)
  | timer
  | disconnectCall
  deriving DecidableEq, Repr

/-- One hook-state transition per event. -/
def wsStep (st : WSState) : WSEvent → WSState
  | .close code => wsOnClose code st
  | .timer => wsTimerFire st
  | .disconnectCall => wsDisconnect st

/-- A sequence of hook events applied in order. -/
def wsRun (st : WSState) (evs : List WSEvent) : WSState :=
  evs.foldl wsStep st

/-! ## HomePage WebSocket-message handler (the useEffect switch) -/

/-- WebSocket messages as consumed by the HomePage handler: the four known
envelope types with their payload fields, plus a constructor for any other
type string (the switch has no case for those). -/
inductive WSMessage where
  | stepUpdate (client_id timestamp step_id : String) (step_status : StepStatus)
      (progress_percentage : Int) (metadata : Option Metadata)
      (current_step : Option Nat)
  | approvalRequest (client_id timestamp step_id : String)
      (approval_data : List (String × String))
  | onboardingComplete (client_id timestamp : String)
      (completed_at : Option String)
  | errorMsg (client_id timestamp : String) (message : Option String)
  | unknownMsg (ty client_id timestamp : String)
  deriving DecidableEq, Repr

/-- The envelope type string of a message. -/
def WSMessage.msgType : WSMessage → String
  | .stepUpdate .. => "step_update"
  | .approvalRequest .. => "approval_request"
  | .onboardingComplete .. => "onboarding_complete"
  | .errorMsg .. => "error"
  | .unknownMsg ty .. => ty

/-- Object-spread update of a metadata map at one key: later keys win, so any
existing binding for the key is replaced. -/
def setMeta (k : String) (v : MetaVal) (m : Metadata) : Metadata :=
  m.filter (fun p => p.1 != k) ++ [(k, v)]

/-- The step_update case body: rewrite the matching step's status (and
metadata when the payload carries one), take progress_percentage from the
message, and take current_step from the payload when present. -/
def applyStepUpdate (step_id : String) (step_status : StepStatus)
    (pct : Int) (meta : Option Metadata) (cur : Option Nat)
    (p : OnboardingProgress) : OnboardingProgress :=
  { p with
    steps := p.steps.map (fun s =>
      if s.id == step_id then
        { s with
          status := step_status
          metadata := match meta with
            | some m => some m
            | none => s.metadata }
      else s)
    progress_percentage := pct
    current_step := cur.getD p.current_step }

/-- The approval_request case body: force the matching step to in_progress
and store the approval payload under the approval_data metadata key. -/
def applyApprovalRequest (step_id : String)
    (approval_data : List (String × String)) (p : OnboardingProgress) :
    OnboardingProgress :=
  { p with
    steps := p.steps.map (fun s =>
      if s.id == step_id then
        { s with
          status := .in_progress
          metadata := some (setMeta "approval_data"
            (.record approval_data) (s.metadata.getD [])) }
      else s) }

/-- The HomePage useEffect that consumes lastMessage. The guard returns
unchanged when no current client is held or its id is falsy (empty string);
otherwise it dispatches on the message type. The now argument stands for the
Date reads performed in the onboarding_complete case. -/
def processMessage (now : String) (msg : WSMessage) (st : StoreState) :
    StoreState :=
  match st.currentClient with
  | none => st
  | some c =>
    if c.id == "" then st
    else
      match msg with
      | .stepUpdate _ _ step_id step_status pct meta cur =>
          match st.currentProgress with
          | some p =>
              let p1 := applyStepUpdate step_id step_status pct meta cur p
              { st with currentProgress := some p1 }
          | none => st
      | .approvalRequest _ _ step_id approval_data =>
          match st.currentProgress with
          | some p =>
              let p1 := applyApprovalRequest step_id approval_data p
              { st with currentProgress := some p1 }
          | none => st
      | .onboardingComplete _ _ completion_completed_at =>
          let st1 := match st.currentProgress with
            | some p =>
                let p1 : OnboardingProgress :=
                  { p with
                    overall_status := .completed
                    progress_percentage := 100
                    completed_at := completion_completed_at }
                { st with currentProgress := some p1 }
            | none => st
          let updatedClient : Client :=
            { c with status := .completed, updated_at := now }
          let st2 := { st1 with currentClient := some updatedClient }
          let st3 := updateClient c.id
            { status := some .completed, updated_at := some now } st2
          { st3 with currentView := .complete }
      | .errorMsg _ _ message =>
          let fallback := "An error occurred during onboarding"
          { st with error := some (match message with
              | some s => if s == "" then fallback else s
              | none => fallback) }
      | .unknownMsg .. => st

/-- A sequence of WebSocket messages consumed in order. -/
def processMessages (now : String) (msgs : List WSMessage)
    (st : StoreState) : StoreState :=
  msgs.foldl (fun s m => processMessage now m s) st

/-! ## StatusDashboard -/

/-- The approval-button condition in the steps list: the button is rendered
exactly when the step's id is human_approval and its status is in_progress. -/
def approvalButtonShown (step : OnboardingStep) : Bool :=
  step.id == "human_approval" && step.status == .in_progress

/-- completedSteps as computed by StatusDashboard. -/
def completedSteps (p : OnboardingProgress) : Nat :=
  (p.steps.filter (fun s => s.status == .completed)).length

/-! ## Whole-app state for the reset path (HomePage handleReset) -/

/-- Requests the frontend can issue to the engine through the API client. -/
inductive ApiRequest where
  | start (intake : ClientInput)
  | approve (clientId stepId : String) (approved : Bool)
      (feedback : Option String)
  | statusQuery (clientId : String)
  deriving DecidableEq, Repr

/-- Combined observer state: the store, the hook state, and the log of
requests issued to the engine. -/
structure AppState where
  store : StoreState
  ws : WSState
  apiRequests : List ApiRequest
  deriving DecidableEq, Repr

/-- handleReset in HomePage: calls the store's reset action, then the hook's
disconnect; its body contains no API call. -/
def handleReset (app : AppState) : AppState :=
  { app with
    store := reset app.store
    ws := wsDisconnect app.ws }

/-! ## Spec-side definitions (stated from the specification's words, for
comparison with the code-side definitions above) -/

/-- Modelled from the spec: the progress-percentage formula
round(100 * completed / total) with JavaScript Math.round (half away from
zero; the operands here are non-negative, so floor of x + 1/2). -/
def specProgressPct (completed total : Nat) : Int :=
  ((200 * completed + total) / (2 * total) : Nat)

/-- Modelled from the spec: the field constraints the claim about intake
validation enumerates, relative to a given email-validity check. -/
def specIntakeOk (emailOk : String → Bool) (i : ClientInput) : Prop :=
  (2 ≤ i.name.length ∧ i.name.length ≤ 100) ∧
  emailOk i.email = true ∧
  (10 ≤ i.project_scope.length ∧ i.project_scope.length ≤ 1000) ∧
  (∀ s, i.additional_notes = some s → s.length ≤ 500)

/-! ## Concrete fixtures for witnesses and counterexamples -/

/-- A sample client record. -/
def clientA : Client where
  name := "Ada Lovelace"
  email := "ada@example.com"
  company := none
  phone := none
  project_type := .web_development
  project_scope := "Build a marketing site with a blog"
  budget_range := none
  timeline := none
  additional_notes := none
  id := "c1"
  status := .in_progress
  created_at := "t0"
  updated_at := "t0"
  drive_folder_id := none
  contract_doc_id := none
  slack_channel_id := none
  github_repo_url := none
  notion_board_id := none
  stripe_customer_id := none
  invoice_id := none

/-- A different client sharing clientA's id. -/
def clientB : Client :=
  { clientA with name := "Grace Hopper", email := "grace@example.com" }

/-- A client with a fresh id. -/
def clientC : Client :=
  { clientA with id := "c2", name := "Alan Turing", email := "alan@example.com" }

/-- A sample workflow step, initially pending. -/
def stepW : OnboardingStep where
  id := "workspace"
  name := "Workspace Setup"
  description := "Create the client workspace"
  status := .pending
  started_at := none
  completed_at := none
  error_message := none
  metadata := none

/-- The approval-gated step, in a terminal state. -/
def stepHA : OnboardingStep :=
  { stepW with id := "human_approval", name := "Human Approval",
               status := .completed }

/-- The initial snapshot right after start: the single step pending,
percentage 0. -/
def progInit : OnboardingProgress where
  client_id := "c1"
  steps := [stepW]
  current_step := 0
  overall_status := .in_progress
  started_at := some "t0"
  completed_at := none
  progress_percentage := 0

/-- Store state of an active onboarding session for clientA. -/
def storeInit : StoreState :=
  { initialState with
    currentClient := some clientA
    currentProgress := some progInit
    isOnboardingActive := true
    currentView := .orchestration
    clients := [clientA] }

/-- step_update: the workspace step completed, percentage 100. -/
def msgDone : WSMessage := .stepUpdate "c1" "t1" "workspace" .completed 100 none none

/-- step_update demoting the workspace step back to pending. -/
def msgPend : WSMessage := .stepUpdate "c1" "t2" "workspace" .pending 0 none none

/-- step_update completing the workspace step but carrying percentage 7. -/
def msgDone7 : WSMessage := .stepUpdate "c1" "t1" "workspace" .completed 7 none none

/-- step_update carrying an out-of-range percentage. -/
def msgPct150 : WSMessage := .stepUpdate "c1" "t1" "workspace" .in_progress 150 none none

/-- A concrete stand-in for the external email check. -/
def emailHasAt (s : String) : Bool := s.contains '@'

/-- An intake violating the name constraint (one character). -/
def badIntake : ClientInput where
  name := "A"
  email := "ada@example.com"
  company := none
  phone := none
  project_type := .design
  project_scope := "Design a brand identity kit"
  budget_range := none
  timeline := none
  additional_notes := none

/-- A sample hook state holding an open connection. -/
def ws0 : WSState where
  clientId := some "c1"
  hasSocket := true
  isConnected := true
  pendingReconnect := false
  connectCount := 1

/-- A sample whole-app state. -/
def app0 : AppState where
  store := storeInit
  ws := ws0
  apiRequests := [.start clientA.toClientInput]

/-- onclose at the whole-app level: the handler only touches the hook state,
never the store. -/
def appOnClose (code : Nat) (app : AppState) : AppState :=
  { app with ws := wsOnClose code app.ws }

/-! ## Theorems -/

/-- Claim C1: intake validation succeeds exactly when the enumerated field
constraints hold (name 2–100 characters, valid email, project scope 10–1000
characters, notes at most 500 characters when present), and an intake
violating any constraint is rejected: the onSubmit callback is never
invoked, so no onboarding state is created. -/
theorem intake_validation_iff (emailOk : String → Bool) (i : ClientInput) :
    (validateClientInput emailOk i = true ↔ specIntakeOk emailOk i) ∧
    (¬ specIntakeOk emailOk i → submitClientForm emailOk i = none) := by
  have hiff : validateClientInput emailOk i = true ↔ specIntakeOk emailOk i := by
    unfold validateClientInput specIntakeOk validName validScope validNotes
    cases hnote : i.additional_notes with
    | none =>
        simp only [Bool.and_eq_true, decide_eq_true_eq]
        constructor
        · rintro ⟨⟨⟨h1, h2⟩, h3⟩, h4⟩
          exact ⟨⟨h1.1, h1.2⟩, h2, ⟨h3.1, h3.2⟩, by simp⟩
        · rintro ⟨⟨h1, h2⟩, h3, ⟨h4, h5⟩, -⟩
          exact ⟨⟨⟨⟨h1, h2⟩, h3⟩, h4, h5⟩, trivial⟩
    | some s =>
        simp only [Bool.and_eq_true, decide_eq_true_eq, Option.some.injEq]
        constructor
        · rintro ⟨⟨⟨h1, h2⟩, h3⟩, h4⟩
          exact ⟨⟨h1.1, h1.2⟩, h2, ⟨h3.1, h3.2⟩, fun t ht => ht ▸ h4⟩
        · rintro ⟨⟨h1, h2⟩, h3, ⟨h4, h5⟩, h6⟩
          exact ⟨⟨⟨⟨h1, h2⟩, h3⟩, h4, h5⟩, h6 s rfl⟩
  refine ⟨hiff, fun h => ?_⟩
  have hv : validateClientInput emailOk i = false := by
    cases hb : validateClientInput emailOk i
    · rfl
    · exact absurd (hiff.mp hb) h
  simp [submitClientForm, hv]

/-- Witness for C1 at a concrete invalid intake. -/
theorem intake_validation_iff_witness :
    submitClientForm emailHasAt badIntake = none :=
  (intake_validation_iff emailHasAt badIntake).2
    (fun h => absurd h.1.1 (by decide))

/-- Claim C6: an event whose type string is none of step_update,
approval_request, onboarding_complete or error falls through the handler's
switch: the store — snapshot, client record, error — is left unchanged and no
failure is raised. -/
theorem unknown_event_ignored (now ty cid ts : String) (st : StoreState)
    (h1 : ty ≠ "step_update") (h2 : ty ≠ "approval_request")
    (h3 : ty ≠ "onboarding_complete") (h4 : ty ≠ "error") :
    (WSMessage.unknownMsg ty cid ts).msgType = ty ∧
    processMessage now (.unknownMsg ty cid ts) st = st := by
  refine ⟨rfl, ?_⟩
  unfold processMessage
  cases st.currentClient with
  | none => rfl
  | some c => simp

/-- Witness for C6 at the plain-text fallback type the hook itself produces. -/
theorem unknown_event_ignored_witness :
    processMessage "t9" (.unknownMsg "message" "c1" "t9") storeInit = storeInit :=
  (unknown_event_ignored "t9" "message" "c1" "t9" storeInit
    (by decide) (by decide) (by decide) (by decide)).2

/-- Claim C7: handleReset clears exactly the local session fields of the
store — current client, current progress, active flag, current view, modal,
loading, error — leaves the stored client-history list (and the connected
flag) unchanged, and issues no request to the engine. -/
theorem reset_clears_session_only (app : AppState) :
    (handleReset app).store.clients = app.store.clients ∧
    (handleReset app).store.isConnected = app.store.isConnected ∧
    (handleReset app).apiRequests = app.apiRequests ∧
    (handleReset app).store.currentClient = none ∧
    (handleReset app).store.currentProgress = none ∧
    (handleReset app).store.isOnboardingActive = false ∧
    (handleReset app).store.currentView = View.landing ∧
    (handleReset app).store.showOnboardingModal = false ∧
    (handleReset app).store.isLoading = false ∧
    (handleReset app).store.error = none :=
  ⟨rfl, rfl, rfl, rfl, rfl, rfl, rfl, rfl, rfl, rfl⟩

/-- Claim C8: the review-and-approve action is rendered exactly when the
step has id human_approval and status in_progress; in particular a step in a
terminal status never offers it. -/
theorem approval_button_iff (step : OnboardingStep) :
    (approvalButtonShown step = true ↔
      (step.id = "human_approval" ∧ step.status = StepStatus.in_progress)) ∧
    ((step.status = StepStatus.completed ∨ step.status = StepStatus.failed) →
      approvalButtonShown step = false) := by
  constructor
  · simp [approvalButtonShown, Bool.and_eq_true, beq_iff_eq]
  · rintro (h | h) <;> simp [approvalButtonShown, h]

/-- Witness for C8: the approval step in a terminal state offers no action. -/
theorem approval_button_iff_witness : approvalButtonShown stepHA = false :=
  (approval_button_iff stepHA).2 (Or.inl rfl)

/-- Claim C2 counterexample: starting from a snapshot whose only step is
pending, a step_update completing it followed by a step_update carrying
status pending takes the step from completed back to pending — the held
status is not monotonic under arbitrary event sequences. -/
theorem step_status_regresses :
    ((processMessages "t" [msgDone] storeInit).currentProgress.map
        (fun p => p.steps.map (fun s => s.status)) =
      some [StepStatus.completed]) ∧
    ((processMessages "t" [msgDone, msgPend] storeInit).currentProgress.map
        (fun p => p.steps.map (fun s => s.status)) =
      some [StepStatus.pending]) :=
  ⟨rfl, rfl⟩

/-- Claim C2 amended: the observer copies event statuses verbatim — after a
step_update the matching step holds exactly the status carried by the event
and the other steps are unchanged, and after an approval_request the matching
step is in_progress; consequently the held status evolves monotonically only
when the incoming event stream is itself monotonic, and an event carrying a
non-terminal status demotes even a completed or failed step. -/
theorem observer_copies_event_status
    (now : String) (st : StoreState) (c : Client) (p : OnboardingProgress)
    (hc : st.currentClient = some c) (hid : c.id ≠ "")
    (hp : st.currentProgress = some p)
    (cid ts sid : String) (s : StepStatus) (pct : Int)
    (meta : Option Metadata) (cur : Option Nat)
    (ad : List (String × String)) :
    ((processMessage now (.stepUpdate cid ts sid s pct meta cur) st).currentProgress.map
        (fun q => q.steps.map (fun t => (t.id, t.status))) =
      some (p.steps.map (fun t => (t.id, if t.id = sid then s else t.status)))) ∧
    ((processMessage now (.approvalRequest cid ts sid ad) st).currentProgress.map
        (fun q => q.steps.map (fun t => (t.id, t.status))) =
      some (p.steps.map
        (fun t => (t.id, if t.id = sid then StepStatus.in_progress else t.status)))) := by
  have hne : (c.id == "") = false := beq_eq_false_iff_ne.mpr hid
  constructor
  · simp only [processMessage, hc, hne, hp, Bool.false_eq_true, if_false,
      applyStepUpdate, Option.map_some', Option.some.injEq, List.map_map]
    refine List.map_congr_left (fun t _ => ?_)
    by_cases hts : t.id = sid
    · simp [Function.comp, hts]
    · simp [Function.comp, beq_eq_false_iff_ne.mpr hts, hts]
  · simp only [processMessage, hc, hne, hp, Bool.false_eq_true, if_false,
      applyApprovalRequest, Option.map_some', Option.some.injEq, List.map_map]
    refine List.map_congr_left (fun t _ => ?_)
    by_cases hts : t.id = sid
    · simp [Function.comp, hts]
    · simp [Function.comp, beq_eq_false_iff_ne.mpr hts, hts]

/-- Witness for the amended C2 at a concrete snapshot and event. -/
theorem observer_copies_event_status_witness :
    ((processMessage "t" msgPend storeInit).currentProgress.map
        (fun q => q.steps.map (fun t => (t.id, t.status))) =
      some (progInit.steps.map
        (fun t => (t.id, if t.id = "workspace" then StepStatus.pending
                         else t.status)))) :=
  (observer_copies_event_status "t" storeInit clientA progInit rfl (by decide)
    rfl "c1" "t2" "workspace" .pending 0 none none []).1

/-- Claim C3 counterexample: the handler stores the percentage carried by the
event without recomputation or clamping — one step_update leaves a snapshot
whose only step is completed while the percentage reads 7 (the completed-step
ratio rounds to 100), and another leaves a percentage of 150, outside
[0, 100]. -/
theorem progress_pct_not_ratio :
    ((processMessages "t" [msgDone7] storeInit).currentProgress.map
        (fun p => (p.progress_percentage,
          specProgressPct (completedSteps p) p.steps.length)) =
      some (7, 100)) ∧
    ((processMessages "t" [msgPct150] storeInit).currentProgress.map
        (fun p => p.progress_percentage) = some 150) ∧
    (7 : Int) ≠ 100 ∧ ¬((150 : Int) ≤ 100) :=
  ⟨rfl, rfl, by decide, by decide⟩

/-- Claim C3 amended: the held progress_percentage is taken from the events on
trust — a step_update sets it to exactly the value carried by the event, an
onboarding_complete sets it to 100, and approval_request, error and unknown
events leave it unchanged; it equals the rounded completed-step ratio only
when the events carry that value. -/
theorem progress_pct_follows_events
    (now : String) (st : StoreState) (c : Client) (p : OnboardingProgress)
    (hc : st.currentClient = some c) (hid : c.id ≠ "")
    (hp : st.currentProgress = some p)
    (cid ts sid ty : String) (s : StepStatus) (pct : Int)
    (meta : Option Metadata) (cur : Option Nat)
    (ad : List (String × String)) (ca : Option String) (em : Option String) :
    ((processMessage now (.stepUpdate cid ts sid s pct meta cur) st).currentProgress.map
        (fun q => q.progress_percentage) = some pct) ∧
    ((processMessage now (.onboardingComplete cid ts ca) st).currentProgress.map
        (fun q => q.progress_percentage) = some 100) ∧
    ((processMessage now (.approvalRequest cid ts sid ad) st).currentProgress.map
        (fun q => q.progress_percentage) = some p.progress_percentage) ∧
    ((processMessage now (.errorMsg cid ts em) st).currentProgress.map
        (fun q => q.progress_percentage) = some p.progress_percentage) ∧
    ((processMessage now (.unknownMsg ty cid ts) st).currentProgress.map
        (fun q => q.progress_percentage) = some p.progress_percentage) := by
  have hne : (c.id == "") = false := beq_eq_false_iff_ne.mpr hid
  refine ⟨?_, ?_, ?_, ?_, ?_⟩ <;>
    simp [processMessage, hc, hne, hp, applyStepUpdate, applyApprovalRequest,
      updateClient, updateClientList]

/-- Witness for the amended C3 at a concrete snapshot and event. -/
theorem progress_pct_follows_events_witness :
    ((processMessage "t" msgPct150 storeInit).currentProgress.map
        (fun q => q.progress_percentage) = some 150) :=
  (progress_pct_follows_events "t" storeInit clientA progInit rfl (by decide)
    rfl "c1" "t1" "workspace" "x" .in_progress 150 none none [] none none).1

/-- Claim C4: an onboarding_complete event leaves the snapshot with overall
status completed, percentage 100 and completed_at copied from the event
payload, and marks the current client record and every history entry with
the same id completed. -/
theorem onboarding_complete_updates
    (now : String) (st : StoreState) (c : Client) (p : OnboardingProgress)
    (hc : st.currentClient = some c) (hid : c.id ≠ "")
    (hp : st.currentProgress = some p) (cid ts : String) (ca : Option String) :
    (processMessage now (.onboardingComplete cid ts ca) st).currentProgress =
      some { p with overall_status := .completed, progress_percentage := 100,
                    completed_at := ca } ∧
    (processMessage now (.onboardingComplete cid ts ca) st).currentClient =
      some { c with status := .completed, updated_at := now } ∧
    (∀ x ∈ (processMessage now (.onboardingComplete cid ts ca) st).clients,
        x.id = c.id → x.status = ClientStatus.completed) := by
  have hne : (c.id == "") = false := beq_eq_false_iff_ne.mpr hid
  refine ⟨?_, ?_, ?_⟩
  · simp [processMessage, hc, hne, hp, updateClient, updateClientList]
  · simp [processMessage, hc, hne, hp, updateClient, updateClientList,
      mergeClient]
  · intro x hx hxid
    simp only [processMessage, hc, hne, hp, Bool.false_eq_true, if_false,
      updateClient, updateClientList, beq_self_eq_true, if_true,
      List.mem_map] at hx
    obtain ⟨y, hy, hfy⟩ := hx
    by_cases hyc : y.id = c.id
    · rw [← hfy]
      simp [beq_iff_eq.mpr hyc, mergeClient]
    · rw [← hfy] at hxid ⊢
      simp only [beq_eq_false_iff_ne.mpr hyc, Bool.false_eq_true, if_false] at hxid ⊢
      exact absurd hxid hyc

/-- Witness for C4 at a concrete session state and event. -/
theorem onboarding_complete_updates_witness :
    (processMessage "t7" (.onboardingComplete "c1" "t7" (some "t7")) storeInit).currentClient =
      some { clientA with status := .completed, updated_at := "t7" } :=
  (onboarding_complete_updates "t7" storeInit clientA progInit rfl (by decide)
    rfl "c1" "t7" (some "t7")).2.1

/-- Once clientIdRef is cleared, no later hook event — a socket close with any
code, a scheduled reconnect timeout firing, or another disconnect call —
restores an id or opens a connection. -/
theorem wsRun_cleared_no_connect (evs : List WSEvent) (st : WSState)
    (h : st.clientId = none) :
    (wsRun st evs).clientId = none ∧
    (wsRun st evs).connectCount = st.connectCount := by
  induction evs generalizing st with
  | nil => exact ⟨h, rfl⟩
  | cons e evs ih =>
      have hstep : (wsStep st e).clientId = none ∧
          (wsStep st e).connectCount = st.connectCount := by
        cases e with
        | close code => exact ⟨h, rfl⟩
        | timer =>
            cases hpr : st.pendingReconnect <;>
              simp [wsStep, wsTimerFire, h, hpr]
        | disconnectCall =>
            cases hs : st.hasSocket <;>
              simp [wsStep, wsDisconnect, wsOnClose, hs, h]
      have hrest := ih (wsStep st e) hstep.1
      exact ⟨hrest.1, hrest.2.trans hstep.2⟩

/-- Claim C5: a socket close with any code other than 1000 while a client id
is registered schedules a reconnect and leaves the store — in particular its
error field — untouched; a manual disconnect clears the registered id, and
from then on no sequence of closes, timer firings or further disconnect calls
ever attempts a connection again. -/
theorem close_reconnect_policy (app : AppState) (code : Nat) (cid : String)
    (st : WSState) (evs : List WSEvent)
    (hcode : code ≠ 1000) (hcid : app.ws.clientId = some cid)
    (hsock : st.hasSocket = true) :
    (appOnClose code app).ws.pendingReconnect = true ∧
    (appOnClose code app).store = app.store ∧
    (wsDisconnect st).clientId = none ∧
    (wsRun (wsDisconnect st) evs).connectCount = st.connectCount ∧
    (wsRun (wsDisconnect st) evs).clientId = none := by
  have h1 : (code != 1000) = true := bne_iff_ne.mpr hcode
  have hdisc : (wsDisconnect st).clientId = none := by
    simp [wsDisconnect, wsOnClose, hsock]
  have hcount : (wsDisconnect st).connectCount = st.connectCount := by
    simp [wsDisconnect, wsOnClose, hsock]
  have hrun := wsRun_cleared_no_connect evs (wsDisconnect st) hdisc
  refine ⟨?_, rfl, hdisc, hrun.2.trans hcount, hrun.1⟩
  simp [appOnClose, wsOnClose, h1, hcid]

/-- Witness for C5 at a concrete hook state, an abnormal close code and a
sample event sequence that disconnects again, drops and times out. -/
theorem close_reconnect_policy_witness :
    (appOnClose 1006 app0).ws.pendingReconnect = true ∧
    (appOnClose 1006 app0).store = app0.store ∧
    (wsDisconnect ws0).clientId = none ∧
    (wsRun (wsDisconnect ws0) [.disconnectCall, .close 1006, .timer]).connectCount =
      ws0.connectCount ∧
    (wsRun (wsDisconnect ws0) [.disconnectCall, .close 1006, .timer]).clientId = none :=
  close_reconnect_policy app0 1006 "c1" ws0 [.disconnectCall, .close 1006, .timer]
    (by decide) rfl rfl

/-- When some entry shares the new client's id and ids are pairwise
distinct, addClient rewrites exactly that entry in place. -/
theorem addClient_replace (client : Client) :
    ∀ clients : List Client, (clients.map (fun c => c.id)).Nodup →
      (∃ c ∈ clients, c.id = client.id) →
      addClient client clients =
        clients.map (fun c => if c.id = client.id then client else c) := by
  intro clients
  induction clients with
  | nil =>
      rintro - ⟨c, hc, -⟩
      cases hc
  | cons a l ih =>
      intro hdist hex
      rw [List.map_cons, List.nodup_cons] at hdist
      by_cases ha : a.id = client.id
      · have h0 : addClient client (a :: l) = client :: l := by
          simp [addClient, List.findIdx?_cons, ha]
        have hl : ∀ c ∈ l, c.id ≠ client.id := by
          intro c hcl hceq
          exact hdist.1 (ha ▸ hceq ▸ List.mem_map_of_mem (fun c => c.id) hcl)
        have hmapid : l.map (fun c => if c.id = client.id then client else c) = l := by
          have h2 : l.map (fun c => if c.id = client.id then client else c) =
              l.map id := List.map_congr_left (fun c hc => if_neg (hl c hc))
          rw [h2, List.map_id]
        rw [h0, List.map_cons, if_pos ha, hmapid]
      · obtain ⟨b, hb, hbid⟩ := hex
        have hbl : b ∈ l := by
          rcases List.mem_cons.mp hb with rfl | hbl
          · exact absurd hbid ha
          · exact hbl
        have hexl : ∃ c ∈ l, c.id = client.id := ⟨b, hbl, hbid⟩
        cases hfl : List.findIdx? (fun c => c.id == client.id) l with
        | none =>
            exfalso
            have hfalse := List.findIdx?_eq_none_iff.mp hfl b hbl
            rw [beq_eq_false_iff_ne] at hfalse
            exact hfalse hbid
        | some j =>
            have h0 : addClient client (a :: l) = a :: l.set j client := by
              simp [addClient, List.findIdx?_cons, beq_eq_false_iff_ne.mpr ha,
                List.findIdx?_succ, hfl]
            have h1 : l.set j client =
                l.map (fun c => if c.id = client.id then client else c) := by
              have hvia : addClient client l = l.set j client := by
                simp [addClient, hfl]
              rw [← hvia]
              exact ih hdist.2 hexl
            rw [h0, h1, List.map_cons, if_neg ha]

/-- Claim C9: on a clients list with pairwise-distinct ids, addClient keeps
the ids distinct; an entry sharing the new client's id is replaced in place
(length and order unchanged), and otherwise the new client is prepended. -/
theorem addClient_id_discipline (client : Client) (clients : List Client)
    (hdist : (clients.map (fun c => c.id)).Nodup) :
    ((addClient client clients).map (fun c => c.id)).Nodup ∧
    ((∃ c ∈ clients, c.id = client.id) →
        addClient client clients =
          clients.map (fun c => if c.id = client.id then client else c) ∧
        (addClient client clients).length = clients.length) ∧
    ((∀ c ∈ clients, c.id ≠ client.id) →
        addClient client clients = client :: clients) := by
  have hnone : (∀ c ∈ clients, c.id ≠ client.id) →
      addClient client clients = client :: clients := by
    intro h
    have hfi : List.findIdx? (fun c => c.id == client.id) clients = none :=
      List.findIdx?_eq_none_iff.mpr
        (fun c hc => beq_eq_false_iff_ne.mpr (h c hc))
    simp [addClient, hfi]
  refine ⟨?_, fun hex => ⟨addClient_replace client clients hdist hex, ?_⟩, hnone⟩
  · by_cases hex : ∃ c ∈ clients, c.id = client.id
    · rw [addClient_replace client clients hdist hex]
      have hids : (clients.map
            (fun c => if c.id = client.id then client else c)).map
            (fun c => c.id) = clients.map (fun c => c.id) := by
        rw [List.map_map]
        refine List.map_congr_left (fun c hc => ?_)
        by_cases h : c.id = client.id
        · simp [Function.comp, h]
        · simp [Function.comp, h]
      rw [hids]
      exact hdist
    · push_neg at hex
      rw [hnone hex, List.map_cons, List.nodup_cons]
      refine ⟨fun hmem => ?_, hdist⟩
      obtain ⟨c, hc, hcid⟩ := List.mem_map.mp hmem
      exact hex c hc hcid
  · rw [addClient_replace client clients hdist hex]
    exact List.length_map clients _

/-- Witness for C9: replacing the entry that shares the id keeps the
singleton history's ids distinct. -/
theorem addClient_id_discipline_witness :
    ((addClient clientB [clientA]).map (fun c => c.id)).Nodup ∧
    addClient clientB [clientA] =
      [clientA].map (fun c => if c.id = clientB.id then clientB else c) :=
  ⟨(addClient_id_discipline clientB [clientA] (by decide)).1,
    ((addClient_id_discipline clientB [clientA] (by decide)).2.1
      ⟨clientA, by decide, by decide⟩).1⟩

/-- Claim C10: updateClient merges the given fields into exactly the list
entries whose id equals clientId, leaves every other entry unchanged, applies
the same merge to currentClient exactly when its id matches, and changes no
other store field. -/
theorem updateClient_targets_matching_ids (clientId : String)
    (u : ClientUpdates) (st : StoreState) :
    ((updateClient clientId u st).clients.length = st.clients.length) ∧
    (∀ i : Nat, (updateClient clientId u st).clients[i]? =
        (st.clients[i]?).map
          (fun c => if c.id = clientId then mergeClient c u else c)) ∧
    (∀ c, st.currentClient = some c →
        (updateClient clientId u st).currentClient =
          some (if c.id = clientId then mergeClient c u else c)) ∧
    (st.currentClient = none →
        (updateClient clientId u st).currentClient = none) ∧
    (updateClient clientId u st).currentProgress = st.currentProgress ∧
    (updateClient clientId u st).isOnboardingActive = st.isOnboardingActive ∧
    (updateClient clientId u st).currentView = st.currentView ∧
    (updateClient clientId u st).showOnboardingModal = st.showOnboardingModal ∧
    (updateClient clientId u st).isLoading = st.isLoading ∧
    (updateClient clientId u st).error = st.error ∧
    (updateClient clientId u st).isConnected = st.isConnected := by
  have hcl : (updateClient clientId u st).clients =
      updateClientList clientId u st.clients := by
    unfold updateClient
    cases st.currentClient with
    | none => rfl
    | some c =>
        dsimp only
        split
        · rfl
        · rfl
  have hmain : ∀ i : Nat, (updateClient clientId u st).clients[i]? =
      (st.clients[i]?).map
        (fun c => if c.id = clientId then mergeClient c u else c) := by
    intro i
    rw [hcl]
    unfold updateClientList
    rw [List.getElem?_map]
    cases st.clients[i]? with
    | none => rfl
    | some c =>
        by_cases h : c.id = clientId
        · simp [h]
        · simp [h, beq_eq_false_iff_ne.mpr h]
  have hcc1 : ∀ c, st.currentClient = some c →
      (updateClient clientId u st).currentClient =
        some (if c.id = clientId then mergeClient c u else c) := by
    intro c hc
    by_cases h : c.id = clientId
    · simp [updateClient, hc, h]
    · simp [updateClient, hc, h, beq_eq_false_iff_ne.mpr h]
  have hcc0 : st.currentClient = none →
      (updateClient clientId u st).currentClient = none := by
    intro hc
    simp [updateClient, hc]
  have hrest : (updateClient clientId u st).currentProgress = st.currentProgress ∧
      (updateClient clientId u st).isOnboardingActive = st.isOnboardingActive ∧
      (updateClient clientId u st).currentView = st.currentView ∧
      (updateClient clientId u st).showOnboardingModal = st.showOnboardingModal ∧
      (updateClient clientId u st).isLoading = st.isLoading ∧
      (updateClient clientId u st).error = st.error ∧
      (updateClient clientId u st).isConnected = st.isConnected := by
    unfold updateClient
    cases st.currentClient with
    | none => exact ⟨rfl, rfl, rfl, rfl, rfl, rfl, rfl⟩
    | some c =>
        dsimp only
        cases h : (c.id == clientId) <;> simp [h]
  refine ⟨?_, hmain, hcc1, hcc0, hrest⟩
  rw [hcl]
  exact List.length_map st.clients _

/-- Witness for C10: merging a failed status into the current session's
client touches currentClient because the id matches. -/
theorem updateClient_targets_witness :
    (updateClient "c1" { status := some ClientStatus.failed } storeInit).currentClient =
      some (if clientA.id = "c1"
            then mergeClient clientA { status := some ClientStatus.failed }
            else clientA) :=
  (updateClient_targets_matching_ids "c1"
    { status := some ClientStatus.failed } storeInit).2.2.1 clientA rfl

end Aegis
